import Mathlib

/-!
Verification of the SchoolRadio synchronized-playback core.

This file gives a shallow embedding of the scheduling engine of the
repository (src/src/services/connectionService.js) and of the listener
presence tracker (src/src/services/firebaseService.js), and proves the
spec claims about them.

Modelling conventions:
* JS timestamps (milliseconds since epoch) are modelled as Int, matching
  the arithmetic of Date.now() values; Math.floor of a quotient of
  integers is Int.fdiv, and the JS remainder operator (sign of the
  dividend) is Int.tmod.
* Track durations are nonnegative: they come from the YouTube API either
  as ISO-8601 strings (parsed digit-wise to a Nat of seconds) or as a
  plain count of seconds, so the numeric variant carries a Nat.
* JS truthiness is modelled where the source relies on it: a missing
  field is none, the number 0 and the empty string are falsy.
* Firebase / localStorage writes are modelled by returning the updated
  value; stateful functions become pure functions that take the stored
  state as an argument and return the new state.
* The incidental logging bookkeeping of getCurrentTrack (the fields
  _lastLoggedTrack and _reportedTrackChange, and the intervalLog /
  criticalLog calls) only feeds console output and is omitted from the
  state model.
* The Math.random() draws of shuffleArray and the reads of Date.now()
  are passed in as explicit arguments.
-/

namespace SchoolRadio

/-- A duration value as it appears on a track record: either a plain
number of seconds or an ISO-8601 duration string (connectionService.js,
parseISODuration handles both). -/
inductive JSDuration where
  | num (n : Nat)
  | str (s : String)
deriving DecidableEq

/-- The fields of a playlist item that the scheduling core reads:
snippet.resourceId.videoId, snippet.title and contentDetails.duration.
A missing contentDetails object is modelled as duration = none. -/
structure Track where
  videoId : Option String
  title : Option String
  duration : Option JSDuration
deriving DecidableEq

/-- Numeric value of a maximal run of leading decimal digits, as
JS parseInt computes it on the captured regex group. -/
def digitsVal (ds : List Char) : Nat :=
  ds.foldl (fun a c => 10 * a + (c.toNat - 48)) 0

/-- Splits off the maximal run of leading decimal digits. -/
def takeDigits : List Char → List Char × List Char
  | [] => ([], [])
  | c :: cs =>
    if c.isDigit then
      let (ds, rest) := takeDigits cs
      (c :: ds, rest)
    else ([], c :: cs)

/-- One optional component of the regex PT(\d+H)?(\d+M)?(\d+S)?: if a
nonempty digit run immediately followed by the letter u starts here, it
is consumed and captured; otherwise nothing is consumed and the captured
value is 0 (JS: parseInt of a missing group via match[k] defaulting). -/
def parseComponent (u : Char) (cs : List Char) : Nat × List Char :=
  match takeDigits cs with
  | ([], _) => (0, cs)
  | (ds, rest) =>
    match rest with
    | [] => (0, cs)
    | r :: rs => if r = u then (digitsVal ds, rs) else (0, cs)

/-- Characters after the first occurrence of the literal letters PT,
none when the string has no such occurrence (the regex of
parseISODuration finds its leftmost match there, or fails). -/
def afterPT : List Char → Option (List Char)
  | 'P' :: 'T' :: rest => some rest
  | _ :: rest => afterPT rest
  | [] => none

/-- Seconds denoted by an ISO-8601 duration string, following the JS
regex semantics of parseISODuration: a failed match yields 0. -/
def parseISOStringSecs (s : String) : Nat :=
  match afterPT s.toList with
  | none => 0
  | some cs =>
    let hPart := parseComponent 'H' cs
    let mPart := parseComponent 'M' hPart.2
    let sPart := parseComponent 'S' mPart.2
    hPart.1 * 3600 + mPart.1 * 60 + sPart.1

/-- parseISODuration of connectionService.js: a falsy argument gives 0,
a number is returned as is, a string goes through the regex. -/
def parseISODuration : Option JSDuration → Nat
  | none => 0
  | some (.num n) => n
  | some (.str s) => if s = "" then 0 else parseISOStringSecs s

/-- JS truthiness of the contentDetails.duration field, as tested by
getCurrentTrack before parsing. -/
def durationTruthy : Option JSDuration → Bool
  | none => false
  | some (.num n) => n != 0
  | some (.str s) => s != ""

/-- Default track length: 3 minutes in milliseconds. -/
def defaultTrackMs : Nat := 3 * 60 * 1000

/-- Per-track duration in milliseconds as getCurrentTrack computes it:
the parsed duration times 1000 when the field is truthy, otherwise the
3-minute default. -/
def trackDurationMs (t : Track) : Nat :=
  if durationTruthy t.duration then parseISODuration t.duration * 1000
  else defaultTrackMs

/-- The trackDurations array of getCurrentTrack before the zero-total
rescue. -/
def rawDurations (pl : List Track) : List Nat := pl.map trackDurationMs

/-- The trackDurations array after the zero-total rescue: when the sum
is zero every entry is overwritten with the default. -/
def effDurations (pl : List Track) : List Nat :=
  if (rawDurations pl).sum = 0 then pl.map (fun _ => defaultTrackMs)
  else rawDurations pl

/-- totalPlaylistDuration of getCurrentTrack, after the zero rescue
substitutes count times the default. -/
def effTotal (pl : List Track) : Nat :=
  if (rawDurations pl).sum = 0 then pl.length * defaultTrackMs
  else (rawDurations pl).sum

/-- The shared radio state record (connectionService.js initialState). -/
structure RadioState where
  playlist : List Track
  currentTrackIndex : Nat
  startTime : Int
  isPlaying : Bool
  playedTracks : Option (List Nat)
  lastFullPlaythrough : Int
deriving DecidableEq

/-- The object returned by getCurrentTrack. -/
structure TrackResult where
  track : Track
  position : Int
  index : Nat
  epoch : Int
deriving DecidableEq

/-- The selection loop of getCurrentTrack: the first track whose
cumulative end time exceeds e, together with the duration accumulated
before it; none when the loop falls through (then JS leaves
currentIndex = 0 and accumulatedDuration = total). -/
def findTrack (e : Int) : List Nat → Int → Nat → Option (Nat × Int)
  | [], _, _ => none
  | d :: ds, acc, i =>
    if acc + (d : Int) > e then some (i, acc)
    else findTrack e ds (acc + (d : Int)) (i + 1)

/-- Placeholder for the undefined value JS would read out of range; the
selection index is always in range, so it is never observable. -/
def defaultTrack : Track := ⟨none, none, none⟩

/-- Core of getCurrentTrack once the guards have passed, as a function
of the elapsed time now - serverStartTime. Returns the result object
and the state after the played-tracks bookkeeping write. -/
def resolveTrack (s : RadioState) (elapsed : Int) : TrackResult × RadioState :=
  let durs := effDurations s.playlist
  let total : Int := (effTotal s.playlist : Int)
  let epoch := elapsed.fdiv total
  let epochElapsed := elapsed.tmod total
  let sel :=
    match findTrack epochElapsed durs 0 0 with
    | some p => p
    | none => ((0 : Nat), (durs.sum : Int))
  let position := (epochElapsed - sel.2).fdiv 1000
  let newPlayed :=
    match s.playedTracks with
    | none => [sel.1]
    | some pt => if sel.1 ∈ pt then pt else pt ++ [sel.1]
  (⟨s.playlist.getD sel.1 defaultTrack, position, sel.1, epoch⟩,
   { s with playedTracks := some newPlayed })

/-- getCurrentTrack of connectionService.js. The first component is the
returned value (null on a missing state or a missing/empty playlist);
the second is the state after the bookkeeping write of playedTracks. -/
def getCurrentTrack (state : Option RadioState) (serverStartTime now : Int) :
    Option TrackResult × Option RadioState :=
  match state with
  | none => (none, none)
  | some s =>
    if s.playlist.length = 0 then (none, some s)
    else
      let r := resolveTrack s (now - serverStartTime)
      (some r.1, some r.2)

/-- Exchanges the entries at positions i and j, as the destructuring
swap of shuffleArray does; out-of-range indices leave the list alone
(they never occur in the shuffle loop). -/
def swapElems {α : Type} (l : List α) (i j : Nat) : List α :=
  match l[i]?, l[j]? with
  | some a, some b => (l.set i b).set j a
  | _, _ => l

/-- The Fisher-Yates loop of shuffleArray, counting i down to 1; rand i
supplies the draw Math.floor(Math.random() * (i + 1)), reduced mod
i + 1 so that every in-range draw is representable. -/
def fisherAux {α : Type} (rand : Nat → Nat) : Nat → List α → List α
  | 0, l => l
  | i + 1, l => fisherAux rand i (swapElems l (i + 1) (rand (i + 1) % (i + 2)))

/-- shuffleArray of connectionService.js with the random draws passed
in explicitly. -/
def shuffleArray {α : Type} (rand : Nat → Nat) (array : List α) : List α :=
  fisherAux rand (array.length - 1) array

/-- checkAndResetPlayedTracks of connectionService.js: when every track
has been marked played, reshuffle the playlist, clear playedTracks and
stamp lastFullPlaythrough; otherwise leave the state alone. The random
draws of the reshuffle and the Date.now() stamp are explicit inputs. -/
def checkAndResetPlayedTracks (state : Option RadioState) (rand : Nat → Nat)
    (now : Int) : Option RadioState :=
  match state with
  | none => none
  | some s =>
    match s.playedTracks with
    | none => some s
    | some pt =>
      if s.playlist.length ≤ pt.length then
        some { s with
                playlist := shuffleArray rand s.playlist,
                playedTracks := some [],
                lastFullPlaythrough := now }
      else some s

/-- The set of video ids of a playlist as both updatePlaylist and
checkPlaylistVersion build it: ids are read from
snippet.resourceId.videoId and only truthy (present, nonempty) ids are
added to the Set; dedup models Set semantics. -/
def playlistIds (pl : List Track) : List String :=
  ((pl.filterMap Track.videoId).filter (fun id => id ≠ "")).dedup

/-- Membership test currentIds.has(item.snippet.resourceId.videoId):
false when the item has no id (Set.has(undefined)). -/
def hasId (ids : List String) (t : Track) : Bool :=
  match t.videoId with
  | some id => ids.contains id
  | none => false

/-- The newItems filter of updatePlaylist: items of the snapshot whose
id is not already an id of the active playlist. -/
def newTracks (s : RadioState) (newPlaylistItems : List Track) : List Track :=
  newPlaylistItems.filter (fun item => !(hasId (playlistIds s.playlist) item))

/-- updatePlaylist of connectionService.js for an existing state: when
the snapshot brings no new ids the state is returned as is, otherwise
the new items are appended to the playlist and nothing else changes. -/
def updatePlaylist (s : RadioState) (newPlaylistItems : List Track) : RadioState :=
  let newItems := newTracks s newPlaylistItems
  if newItems.isEmpty then s
  else { s with playlist := s.playlist ++ newItems }

/-- checkPlaylistVersion of connectionService.js (the forceRefreshCounter
block only logs and does not affect the returned value): true when the
lengths differ, when the id sets have different sizes, or when some id
of the active playlist is absent from the snapshot (videosRemoved);
videosAdded is computed by the source but never returned. -/
def checkPlaylistVersion (newItems : Option (List Track))
    (state : Option RadioState) : Bool :=
  match newItems with
  | none => false
  | some items =>
    match state with
    | none => true
    | some s =>
      if s.playlist.length ≠ items.length then true
      else
        let currentIds := playlistIds s.playlist
        let newIds := playlistIds items
        if currentIds.length ≠ newIds.length then true
        else currentIds.any (fun id => !(newIds.contains id))

/-- A listener session record (firebaseService.js): heartbeat timestamp
and active flag. -/
structure Listener where
  timestamp : Option Int
  active : Bool
deriving DecidableEq

/-- The stats record: current and total listener counts. -/
structure Stats where
  currentListeners : Nat
  totalListeners : Nat
deriving DecidableEq

/-- Five minutes in milliseconds. -/
def INACTIVE_THRESHOLD_MS : Int := 5 * 60 * 1000

/-- One step of the cleanup loop of cleanupInactiveListeners: the
updated session record and its contribution to the recomputed active
count. JS truthiness: a timestamp of 0 fails the if test and the
session is counted active without a staleness check. -/
def cleanupListener (now : Int) (l : Listener) : Listener × Nat :=
  if l.active then
    match l.timestamp with
    | some t =>
      if t ≠ 0 then
        if now - t > INACTIVE_THRESHOLD_MS then ({ l with active := false }, 0)
        else (l, 1)
      else (l, 1)
    | none => (l, 1)
  else (l, 0)

/-- cleanupInactiveListeners of firebaseService.js: the session map
after marking stale sessions inactive, and the recomputed value written
to stats/currentListeners. -/
def cleanupInactiveListeners (now : Int) (sessions : List (String × Listener)) :
    List (String × Listener) × Nat :=
  (sessions.map (fun p => (p.1, (cleanupListener now p.2).1)),
   (sessions.map (fun p => (cleanupListener now p.2).2)).sum)

/-- Firebase set on listeners/sessionId: replaces the record under the
key, appending when the key is new. -/
def setSession : List (String × Listener) → String → Listener →
    List (String × Listener)
  | [], sid, l => [(sid, l)]
  | (k, v) :: rest, sid, l =>
    if k = sid then (sid, l) :: rest else (k, v) :: setSession rest sid l

/-- The active-listener recount both register and cleanup perform:
sessions whose active flag is exactly true. -/
def countActive (sessions : List (String × Listener)) : Nat :=
  (sessions.filter (fun p => p.2.active)).length

/-- registerListener of firebaseService.js: reads the stats (defaulting
to zeros), writes a fresh active session under sessionId, recounts the
active sessions of the updated map and writes the new stats record. -/
def registerListener (sessions : List (String × Listener)) (sessionId : String)
    (now : Int) (stats : Option Stats) : List (String × Listener) × Stats :=
  let st := stats.getD ⟨0, 0⟩
  let sessions1 := setSession sessions sessionId ⟨some now, true⟩
  (sessions1, ⟨countActive sessions1, st.totalListeners + 1⟩)

/-- The playedTracks validity invariant of the spec: every recorded
index is a valid index into the current playlist. -/
def PlayedOK (s : RadioState) : Prop :=
  ∀ i ∈ s.playedTracks.getD [], i < s.playlist.length

instance (s : RadioState) : Decidable (PlayedOK s) := by
  unfold PlayedOK; infer_instance

/-- Sample tracks used to instantiate hypotheses of the proved claims on
concrete inputs. -/
def trackA : Track := ⟨some ("a"), none, some (.str "PT1M")⟩

/-- A second sample track, 30 seconds long. -/
def trackB : Track := ⟨some ("b"), none, some (.str "PT30S")⟩

/-- A sample state holding the two sample tracks. -/
def sampleState : RadioState := ⟨[trackA, trackB], 0, 0, true, some [], 0⟩

/-- A sample track whose duration string the ISO-8601 regex rejects. -/
def badTrack : Track := ⟨some ("x"), none, some (.str "garbage")⟩

/- Helper lemmas about the Fisher-Yates swap. -/

lemma cons_set_perm {α : Type} (t : List α) :
    ∀ (m : Nat) (b x : α), t[m]? = some b →
      List.Perm (b :: t.set m x) (x :: t) := by
  induction t with
  | nil => intro m b x h; simp at h
  | cons c r ih =>
    intro m b x h
    cases m with
    | zero =>
      simp only [List.getElem?_cons_zero, Option.some.injEq] at h
      subst h
      simpa using List.Perm.swap x c r
    | succ m =>
      simp only [List.getElem?_cons_succ] at h
      have h1 : List.Perm (b :: c :: r.set m x) (c :: b :: r.set m x) :=
        List.Perm.swap c b (r.set m x)
      have h2 : List.Perm (c :: b :: r.set m x) (c :: x :: r) :=
        (ih m b x h).cons c
      have h3 : List.Perm (c :: x :: r) (x :: c :: r) := List.Perm.swap x c r
      simpa using (h1.trans h2).trans h3

lemma swap_set_perm {α : Type} (l : List α) :
    ∀ (i j : Nat) (a b : α), l[i]? = some a → l[j]? = some b →
      List.Perm ((l.set i b).set j a) l := by
  induction l with
  | nil => intro i j a b h _; simp at h
  | cons x t ih =>
    intro i j a b ha hb
    cases i with
    | zero =>
      simp only [List.getElem?_cons_zero, Option.some.injEq] at ha
      subst ha
      cases j with
      | zero =>
        simp only [List.getElem?_cons_zero, Option.some.injEq] at hb
        subst hb
        simp
      | succ j =>
        simp only [List.getElem?_cons_succ] at hb
        simpa using cons_set_perm t j b x hb
    | succ i =>
      simp only [List.getElem?_cons_succ] at ha
      cases j with
      | zero =>
        simp only [List.getElem?_cons_zero, Option.some.injEq] at hb
        subst hb
        simpa using cons_set_perm t i a x ha
      | succ j =>
        simp only [List.getElem?_cons_succ] at hb
        simpa using (ih i j a b ha hb).cons x

lemma swapElems_perm {α : Type} (l : List α) (i j : Nat) :
    List.Perm (swapElems l i j) l := by
  unfold swapElems
  cases hi : l[i]? with
  | none => simp
  | some a =>
    cases hj : l[j]? with
    | none => simp
    | some b =>
      simpa using swap_set_perm l i j a b hi hj

lemma fisherAux_perm {α : Type} (rand : Nat → Nat) :
    ∀ (i : Nat) (l : List α), List.Perm (fisherAux rand i l) l := by
  intro i
  induction i with
  | zero => intro l; simp [fisherAux]
  | succ i ih =>
    intro l
    exact (ih _).trans (swapElems_perm l (i + 1) (rand (i + 1) % (i + 2)))

lemma shuffleArray_perm {α : Type} (rand : Nat → Nat) (array : List α) :
    List.Perm (shuffleArray rand array) array :=
  fisherAux_perm rand (array.length - 1) array

/-- C7: for every input array and every sequence of random draws,
shuffleArray returns a list of the same length that is a permutation
(the same multiset of elements) of its input. -/
theorem c7_shuffle_is_permutation {α : Type} (rand : Nat → Nat) (array : List α) :
    (shuffleArray rand array).length = array.length ∧
    List.Perm (shuffleArray rand array) array :=
  ⟨(shuffleArray_perm rand array).length_eq, shuffleArray_perm rand array⟩

/-- C10: getCurrentTrack returns null for a null state, and for a state
whose playlist is missing or empty (a missing playlist field and an
empty playlist coincide in the model), without raising an error. -/
theorem c10_uninitialized_resolver_returns_null :
    (∀ T0 now : Int, (getCurrentTrack none T0 now).1 = none) ∧
    (∀ (s : RadioState) (T0 now : Int), s.playlist = [] →
      (getCurrentTrack (some s) T0 now).1 = none) := by
  constructor
  · intro T0 now; rfl
  · intro s T0 now h
    simp [getCurrentTrack, h]

/-- Witness for C10 at the empty-playlist state. -/
theorem c10_witness :
    (getCurrentTrack (some ⟨[], 0, 0, true, some [], 0⟩) 0 0).1 = none :=
  c10_uninitialized_resolver_returns_null.2 ⟨[], 0, 0, true, some [], 0⟩ 0 0 rfl

/-- C5: for a snapshot whose ids cover the active playlist's ids,
updatePlaylist appends exactly the snapshot items whose id is not
already present, keeping the existing playlist as an initial segment
and leaving startTime and playedTracks unchanged; a snapshot with no
new ids returns the state unchanged. -/
theorem c5_merge_appends_preserving_schedule (s : RadioState) (items : List Track)
    (hsup : ∀ id ∈ playlistIds s.playlist, id ∈ playlistIds items) :
    (updatePlaylist s items).playlist = s.playlist ++ newTracks s items ∧
    (∀ t, t ∈ newTracks s items ↔
        t ∈ items ∧ hasId (playlistIds s.playlist) t = false) ∧
    (updatePlaylist s items).startTime = s.startTime ∧
    (updatePlaylist s items).playedTracks = s.playedTracks ∧
    (newTracks s items = [] → updatePlaylist s items = s) := by
  refine ⟨?_, ?_, ?_, ?_, ?_⟩
  · cases hn : newTracks s items with
    | nil => simp [updatePlaylist, hn]
    | cons t ts => simp [updatePlaylist, hn]
  · intro t
    simp [newTracks, List.mem_filter]
  · cases hn : newTracks s items with
    | nil => simp [updatePlaylist, hn]
    | cons t ts => simp [updatePlaylist, hn]
  · cases hn : newTracks s items with
    | nil => simp [updatePlaylist, hn]
    | cons t ts => simp [updatePlaylist, hn]
  · intro h
    simp [updatePlaylist, h]

/-- Witness for C5: adding one genuinely new track to the sample state. -/
theorem c5_witness :
    (updatePlaylist ⟨[trackA], 0, 0, true, some [0], 0⟩ [trackA, trackB]).playlist
      = [trackA] ++ newTracks ⟨[trackA], 0, 0, true, some [0], 0⟩ [trackA, trackB] :=
  (c5_merge_appends_preserving_schedule ⟨[trackA], 0, 0, true, some [0], 0⟩
    [trackA, trackB] (by decide)).1

lemma mem_setSession (sessions : List (String × Listener)) (sid : String)
    (l : Listener) : (sid, l) ∈ setSession sessions sid l := by
  induction sessions with
  | nil => simp [setSession]
  | cons p rest ih =>
    rcases p with ⟨k, v⟩
    by_cases h : k = sid <;> simp [setSession, h, ih]

/-- C9: registerListener stores a fresh active session under the new
session id, adds exactly 1 to totalListeners, and publishes as
currentListeners the active count recomputed from the updated session
map (hence at least 1, and independent of the previously stored
currentListeners value). -/
theorem c9_register_recounts_active (sessions : List (String × Listener))
    (sid : String) (now : Int) (stats : Option Stats) :
    ((sid, Listener.mk (some now) true) ∈ (registerListener sessions sid now stats).1) ∧
    ((registerListener sessions sid now stats).2.totalListeners
        = (stats.getD ⟨0, 0⟩).totalListeners + 1) ∧
    ((registerListener sessions sid now stats).2.currentListeners
        = countActive (registerListener sessions sid now stats).1) ∧
    (1 ≤ (registerListener sessions sid now stats).2.currentListeners) ∧
    (∀ c₁ c₂ tot : Nat,
      (registerListener sessions sid now (some ⟨c₁, tot⟩)).2.currentListeners
        = (registerListener sessions sid now (some ⟨c₂, tot⟩)).2.currentListeners) := by
  refine ⟨mem_setSession sessions sid _, rfl, rfl, ?_, fun c₁ c₂ tot => rfl⟩
  have hmem : (sid, Listener.mk (some now) true)
      ∈ (setSession sessions sid ⟨some now, true⟩).filter (fun p => p.2.active) :=
    List.mem_filter.mpr ⟨mem_setSession sessions sid _, rfl⟩
  exact List.length_pos_of_mem hmem

/- Helper lemmas about the duration accounting and the selection loop. -/

lemma findTrack_nil (e : Int) (acc : Int) (k : Nat) :
    findTrack e [] acc k = none := rfl

lemma findTrack_cons (e : Int) (d : Nat) (ds : List Nat) (acc : Int) (k : Nat) :
    findTrack e (d :: ds) acc k =
      if acc + (d : Int) > e then some (k, acc)
      else findTrack e ds (acc + (d : Int)) (k + 1) := rfl

lemma findTrack_some (e : Int) :
    ∀ (ds : List Nat) (acc : Int) (k i : Nat) (a : Int),
      findTrack e ds acc k = some (i, a) → k ≤ i ∧ i - k < ds.length := by
  intro ds
  induction ds with
  | nil => intro acc k i a h; simp [findTrack_nil] at h
  | cons d ds ih =>
    intro acc k i a h
    rw [findTrack_cons] at h
    by_cases hgt : acc + (d : Int) > e
    · rw [if_pos hgt] at h
      simp only [Option.some.injEq, Prod.mk.injEq] at h
      obtain ⟨h1, h2⟩ := h
      subst h1
      simp only [List.length_cons]
      omega
    · rw [if_neg hgt] at h
      have h3 := ih (acc + (d : Int)) (k + 1) i a h
      simp only [List.length_cons]
      omega

lemma findTrack_spec (e : Int) :
    ∀ (ds : List Nat) (acc : Int) (k : Nat),
      acc ≤ e → e < acc + (ds.sum : Int) →
      ∃ i a d, findTrack e ds acc k = some (i, a) ∧
        ds[i - k]? = some d ∧ a ≤ e ∧ e < a + (d : Int) := by
  intro ds
  induction ds with
  | nil =>
    intro acc k h1 h2
    simp only [List.sum_nil, Nat.cast_zero, add_zero] at h2
    omega
  | cons d ds ih =>
    intro acc k h1 h2
    by_cases hgt : acc + (d : Int) > e
    · refine ⟨k, acc, d, ?_, ?_, h1, hgt⟩
      · rw [findTrack_cons, if_pos hgt]
      · simp
    · push_neg at hgt
      have h2a : e < acc + (d : Int) + (ds.sum : Int) := by
        rw [List.sum_cons, Nat.cast_add] at h2
        omega
      obtain ⟨i, a, d2, hf, hg, ha, hd⟩ := ih (acc + (d : Int)) (k + 1) hgt h2a
      have hk := (findTrack_some e ds (acc + (d : Int)) (k + 1) i a hf).1
      refine ⟨i, a, d2, ?_, ?_, ha, hd⟩
      · rw [findTrack_cons, if_neg (not_lt.mpr hgt)]
        exact hf
      · have hik : i - k = (i - (k + 1)) + 1 := by omega
        rw [hik, List.getElem?_cons_succ]
        exact hg

lemma effDurations_length (pl : List Track) :
    (effDurations pl).length = pl.length := by
  unfold effDurations
  split <;> simp [rawDurations]

lemma effTotal_eq_sum (pl : List Track) :
    effTotal pl = (effDurations pl).sum := by
  unfold effTotal effDurations
  split
  · rw [List.map_const']
    exact (List.sum_const_nat pl.length defaultTrackMs).symm
  · rfl

lemma effTotal_pos (pl : List Track) (h : pl ≠ []) : 0 < effTotal pl := by
  unfold effTotal
  split_ifs with h0
  · have hl : 0 < pl.length := List.length_pos.mpr h
    have hd : 0 < defaultTrackMs := by norm_num [defaultTrackMs]
    exact Nat.mul_pos hl hd
  · exact Nat.pos_of_ne_zero h0

lemma getCurrentTrack_of_findTrack (s : RadioState) (T0 now : Int)
    (hlen : ¬ s.playlist.length = 0) (i : Nat) (a : Int)
    (hf : findTrack ((now - T0).tmod ((effTotal s.playlist : Nat) : Int))
        (effDurations s.playlist) 0 0 = some (i, a)) :
    getCurrentTrack (some s) T0 now =
      (some ⟨s.playlist.getD i defaultTrack,
            ((now - T0).tmod ((effTotal s.playlist : Nat) : Int) - a).fdiv 1000, i,
            (now - T0).fdiv ((effTotal s.playlist : Nat) : Int)⟩,
       some { s with playedTracks := some (match s.playedTracks with
          | none => [i]
          | some pt => if i ∈ pt then pt else pt ++ [i]) }) := by
  simp only [getCurrentTrack, resolveTrack, hf, if_neg hlen]

lemma getCurrentTrack_of_findTrack_none (s : RadioState) (T0 now : Int)
    (hlen : ¬ s.playlist.length = 0)
    (hf : findTrack ((now - T0).tmod ((effTotal s.playlist : Nat) : Int))
        (effDurations s.playlist) 0 0 = none) :
    (getCurrentTrack (some s) T0 now).2 =
      some { s with playedTracks := some (match s.playedTracks with
          | none => [0]
          | some pt => if 0 ∈ pt then pt else pt ++ [0]) } := by
  simp only [getCurrentTrack, resolveTrack, hf, if_neg hlen]

/-- C2: for every state with a non-empty playlist and every instant not
before the origin, getCurrentTrack returns a result whose index is a
valid playlist index and whose position (in whole seconds) is
nonnegative and strictly inside the effective duration of the selected
track (durations are in milliseconds, so position times 1000 is
compared). -/
theorem c2_resolver_output_in_range (s : RadioState) (T0 now : Int)
    (hne : s.playlist ≠ []) (hT : T0 ≤ now) :
    ∃ r, (getCurrentTrack (some s) T0 now).1 = some r ∧
      r.index < s.playlist.length ∧ 0 ≤ r.position ∧
      r.position * 1000 < (((effDurations s.playlist).getD r.index 0 : Nat) : Int) := by
  have hlen : ¬ s.playlist.length = 0 := by
    rw [List.length_eq_zero]
    exact hne
  have htot : 0 < effTotal s.playlist := effTotal_pos s.playlist hne
  have htotZ : (0 : Int) < ((effTotal s.playlist : Nat) : Int) := by exact_mod_cast htot
  have helapsed : (0 : Int) ≤ now - T0 := by omega
  set e := (now - T0).tmod ((effTotal s.playlist : Nat) : Int) with hedef
  have he0 : (0 : Int) ≤ e := Int.tmod_nonneg _ helapsed
  have helt : e < ((effTotal s.playlist : Nat) : Int) := Int.tmod_lt_of_pos _ htotZ
  have hsum : (((effDurations s.playlist).sum : Nat) : Int)
      = ((effTotal s.playlist : Nat) : Int) := by
    exact_mod_cast (effTotal_eq_sum s.playlist).symm
  have hlt : e < 0 + (((effDurations s.playlist).sum : Nat) : Int) := by
    rw [zero_add, hsum]
    exact helt
  obtain ⟨i, a, d, hf, hg, ha, hd⟩ :=
    findTrack_spec e (effDurations s.playlist) 0 0 he0 hlt
  have hi : i < s.playlist.length := by
    have h1 := (findTrack_some e (effDurations s.playlist) 0 0 i a hf).2
    rw [effDurations_length] at h1
    simpa using h1
  have hgd : (effDurations s.playlist).getD i 0 = d := by
    simp only [Nat.sub_zero] at hg
    simp [List.getD, hg]
  refine ⟨⟨s.playlist.getD i defaultTrack, (e - a).fdiv 1000, i,
      (now - T0).fdiv ((effTotal s.playlist : Nat) : Int)⟩, ?_, hi, ?_, ?_⟩
  · rw [getCurrentTrack_of_findTrack s T0 now hlen i a hf]
  · dsimp only
    have hea : (0 : Int) ≤ e - a := by omega
    rw [Int.fdiv_eq_ediv _ (by norm_num : (0 : Int) ≤ 1000)]
    exact Int.ediv_nonneg hea (by norm_num)
  · dsimp only
    rw [hgd]
    have hea : (0 : Int) ≤ e - a := by omega
    rw [Int.fdiv_eq_ediv _ (by norm_num : (0 : Int) ≤ 1000)]
    have hdm := Int.ediv_add_emod (e - a) 1000
    have hmn := Int.emod_nonneg (e - a) (by norm_num : (1000 : Int) ≠ 0)
    omega

/-- Witness for C2 at the sample two-track state, 5 seconds in. -/
theorem c2_witness :
    ∃ r, (getCurrentTrack (some sampleState) 0 5000).1 = some r ∧
      r.index < sampleState.playlist.length ∧ 0 ≤ r.position ∧
      r.position * 1000 < (((effDurations sampleState.playlist).getD r.index 0 : Nat) : Int) :=
  c2_resolver_output_in_range sampleState 0 5000 (by decide) (by decide)

/-- C1: for every state whose playlist holds exactly two tracks of
durations 60 and 30 seconds and every origin T0, getCurrentTrack
reports (index 0, position 10, epoch 0) at T0 + 10s, (index 1,
position 5, epoch 0) at T0 + 65s, and (index 0, position 5, epoch 1)
at T0 + 95s. -/
theorem c1_two_track_schedule (s : RadioState) (T0 : Int) (t0 t1 : Track)
    (hpl : s.playlist = [t0, t1])
    (h0 : trackDurationMs t0 = 60000) (h1 : trackDurationMs t1 = 30000) :
    ((getCurrentTrack (some s) T0 (T0 + 10000)).1.map
        (fun r => (r.index, r.position, r.epoch)) = some (0, 10, 0)) ∧
    ((getCurrentTrack (some s) T0 (T0 + 65000)).1.map
        (fun r => (r.index, r.position, r.epoch)) = some (1, 5, 0)) ∧
    ((getCurrentTrack (some s) T0 (T0 + 95000)).1.map
        (fun r => (r.index, r.position, r.epoch)) = some (0, 5, 1)) := by
  have hraw : rawDurations s.playlist = [60000, 30000] := by
    simp [rawDurations, hpl, h0, h1]
  have hd : effDurations s.playlist = [60000, 30000] := by
    simp [effDurations, hraw]
  have ht : effTotal s.playlist = 90000 := by
    simp [effTotal, hraw]
  have hlen : ¬ s.playlist.length = 0 := by simp [hpl]
  refine ⟨?_, ?_, ?_⟩
  · have hf : findTrack ((T0 + 10000 - T0).tmod ((effTotal s.playlist : Nat) : Int))
        (effDurations s.playlist) 0 0 = some (0, 0) := by
      rw [hd, ht, show T0 + 10000 - T0 = (10000 : Int) by ring]
      decide
    rw [getCurrentTrack_of_findTrack s T0 (T0 + 10000) hlen 0 0 hf,
      show T0 + 10000 - T0 = (10000 : Int) by ring, ht]
    dsimp only [Option.map]
    decide
  · have hf : findTrack ((T0 + 65000 - T0).tmod ((effTotal s.playlist : Nat) : Int))
        (effDurations s.playlist) 0 0 = some (1, 60000) := by
      rw [hd, ht, show T0 + 65000 - T0 = (65000 : Int) by ring]
      decide
    rw [getCurrentTrack_of_findTrack s T0 (T0 + 65000) hlen 1 60000 hf,
      show T0 + 65000 - T0 = (65000 : Int) by ring, ht]
    dsimp only [Option.map]
    decide
  · have hf : findTrack ((T0 + 95000 - T0).tmod ((effTotal s.playlist : Nat) : Int))
        (effDurations s.playlist) 0 0 = some (0, 0) := by
      rw [hd, ht, show T0 + 95000 - T0 = (95000 : Int) by ring]
      decide
    rw [getCurrentTrack_of_findTrack s T0 (T0 + 95000) hlen 0 0 hf,
      show T0 + 95000 - T0 = (95000 : Int) by ring, ht]
    dsimp only [Option.map]
    decide

/-- Witness for C1 at the sample state with origin 0. -/
theorem c1_witness :
    ((getCurrentTrack (some sampleState) 0 (0 + 10000)).1.map
        (fun r => (r.index, r.position, r.epoch)) = some (0, 10, 0)) ∧
    ((getCurrentTrack (some sampleState) 0 (0 + 65000)).1.map
        (fun r => (r.index, r.position, r.epoch)) = some (1, 5, 0)) ∧
    ((getCurrentTrack (some sampleState) 0 (0 + 95000)).1.map
        (fun r => (r.index, r.position, r.epoch)) = some (0, 5, 1)) :=
  c1_two_track_schedule sampleState 0 trackA trackB rfl (by decide) (by decide)

lemma playedOK_after_mark (s : RadioState) (i : Nat) (hi : i < s.playlist.length)
    (hok : PlayedOK s) :
    PlayedOK { s with playedTracks := some (match s.playedTracks with
        | none => [i]
        | some pt => if i ∈ pt then pt else pt ++ [i]) } := by
  intro x hx
  dsimp only at hx ⊢
  cases hpt : s.playedTracks with
  | none =>
    rw [hpt] at hx
    simp only [Option.getD_some, List.mem_singleton] at hx
    subst hx
    exact hi
  | some pt =>
    rw [hpt] at hx
    simp only [Option.getD_some] at hx
    by_cases hmem : i ∈ pt
    · rw [if_pos hmem] at hx
      have hs := hok x
      rw [hpt] at hs
      exact hs hx
    · rw [if_neg hmem] at hx
      rcases List.mem_append.mp hx with h | h
      · have hs := hok x
        rw [hpt] at hs
        exact hs h
      · simp only [List.mem_singleton] at h
        subst h
        exact hi

/-- C6: the three state mutators preserve the invariant that every
recorded played index is a valid playlist index, and the reshuffle path
of checkAndResetPlayedTracks clears playedTracks (the function either
leaves the state untouched or returns it with an empty playedTracks). -/
theorem c6_mutators_preserve_played_invariant :
    (∀ (s : RadioState) (T0 now : Int) (s2 : RadioState), PlayedOK s →
        (getCurrentTrack (some s) T0 now).2 = some s2 → PlayedOK s2) ∧
    (∀ (s : RadioState) (rand : Nat → Nat) (now : Int) (s2 : RadioState), PlayedOK s →
        checkAndResetPlayedTracks (some s) rand now = some s2 →
        PlayedOK s2 ∧ (s2 = s ∨ s2.playedTracks = some [])) ∧
    (∀ (s : RadioState) (items : List Track), PlayedOK s →
        PlayedOK (updatePlaylist s items)) := by
  refine ⟨?_, ?_, ?_⟩
  · intro s T0 now s2 hok h2
    by_cases hlen : s.playlist.length = 0
    · simp only [getCurrentTrack, if_pos hlen, Option.some.injEq] at h2
      subst h2
      exact hok
    · cases hf : findTrack ((now - T0).tmod ((effTotal s.playlist : Nat) : Int))
          (effDurations s.playlist) 0 0 with
      | none =>
        rw [getCurrentTrack_of_findTrack_none s T0 now hlen hf] at h2
        simp only [Option.some.injEq] at h2
        subst h2
        exact playedOK_after_mark s 0 (Nat.pos_of_ne_zero hlen) hok
      | some p =>
        rcases p with ⟨i, a⟩
        have hcur := congrArg Prod.snd (getCurrentTrack_of_findTrack s T0 now hlen i a hf)
        rw [hcur] at h2
        simp only [Option.some.injEq] at h2
        subst h2
        have h1 := (findTrack_some _ _ _ _ _ _ hf).2
        rw [effDurations_length] at h1
        exact playedOK_after_mark s i (by simpa using h1) hok
  · intro s rand now s2 hok h2
    cases hpt : s.playedTracks with
    | none =>
      simp only [checkAndResetPlayedTracks, hpt, Option.some.injEq] at h2
      subst h2
      exact ⟨hok, Or.inl rfl⟩
    | some pt =>
      simp only [checkAndResetPlayedTracks, hpt] at h2
      by_cases hc : s.playlist.length ≤ pt.length
      · rw [if_pos hc] at h2
        simp only [Option.some.injEq] at h2
        subst h2
        constructor
        · intro x hx
          simp at hx
        · exact Or.inr rfl
      · rw [if_neg hc] at h2
        simp only [Option.some.injEq] at h2
        subst h2
        exact ⟨hok, Or.inl rfl⟩
  · intro s items hok
    simp only [updatePlaylist]
    split_ifs with h
    · exact hok
    · intro x hx
      dsimp only at hx ⊢
      have hx2 := hok x hx
      simp only [List.length_append]
      omega

/-- Witness for C6: the append mutator keeps the invariant on a state
with both indices marked played. -/
theorem c6_witness :
    PlayedOK (updatePlaylist ⟨[trackA, trackB], 0, 0, true, some [0, 1], 0⟩ [trackB]) :=
  c6_mutators_preserve_played_invariant.2.2 ⟨[trackA, trackB], 0, 0, true, some [0, 1], 0⟩
    [trackB] (by decide)

/-- C3 counterexample: the claim predicts that a snapshot whose ids are
a strict superset of the active ids (only additions) requires no
refresh, i.e. checkPlaylistVersion = false; but the function returns
true as soon as the lengths differ, so adding one track to a one-track
playlist yields true. -/
theorem c3_counterexample_superset_forces_refresh :
    checkPlaylistVersion (some [trackA, trackB])
      (some ⟨[trackA], 0, 0, true, some [], 0⟩) = true := by decide

/-- C3 (amended): checkPlaylistVersion returns false for a snapshot of
the same length with the identical id set; it returns true whenever
some id of the active playlist is missing from the snapshot; and it
also returns true whenever the playlist lengths differ, so a
pure-addition snapshot (which changes the length) triggers a refresh
rather than the no-refresh Merge the claim stated. -/
theorem c3_amended_reconciler_classification :
    (∀ (s : RadioState) (items : List Track),
        s.playlist.length = items.length →
        (∀ id, id ∈ playlistIds s.playlist ↔ id ∈ playlistIds items) →
        checkPlaylistVersion (some items) (some s) = false) ∧
    (∀ (s : RadioState) (items : List Track) (id : String),
        id ∈ playlistIds s.playlist → id ∉ playlistIds items →
        checkPlaylistVersion (some items) (some s) = true) ∧
    (∀ (s : RadioState) (items : List Track),
        s.playlist.length ≠ items.length →
        checkPlaylistVersion (some items) (some s) = true) := by
  refine ⟨?_, ?_, ?_⟩
  · intro s items hlen hiff
    have hperm : (playlistIds s.playlist).Perm (playlistIds items) :=
      (List.perm_ext_iff_of_nodup (List.nodup_dedup _) (List.nodup_dedup _)).mpr hiff
    have hsz := hperm.length_eq
    simp only [checkPlaylistVersion, if_neg (not_ne_iff.mpr hlen),
      if_neg (not_ne_iff.mpr hsz), List.any_eq_false]
    intro x hx
    simp [List.contains, List.elem_eq_mem, (hiff x).mp hx]
  · intro s items id hin hout
    by_cases hl : s.playlist.length ≠ items.length
    · simp [checkPlaylistVersion, hl]
    · by_cases hsz : (playlistIds s.playlist).length ≠ (playlistIds items).length
      · simp [checkPlaylistVersion, hl, hsz]
      · simp only [checkPlaylistVersion, if_neg hl, if_neg hsz, List.any_eq_true]
        refine ⟨id, hin, ?_⟩
        simp [List.contains, List.elem_eq_mem, hout]
  · intro s items h
    simp [checkPlaylistVersion, h]

/-- Witness for C3 (amended): removing the only id forces a refresh. -/
theorem c3_amended_witness :
    checkPlaylistVersion (some [trackB]) (some ⟨[trackA], 0, 0, true, some [], 0⟩) = true :=
  c3_amended_reconciler_classification.2.1 ⟨[trackA], 0, 0, true, some [], 0⟩
    [trackB] ("a") (by decide) (by decide)

/-- C4 counterexample: the claim predicts that a track with an
unparseable ISO-8601 duration string is assigned the 3-minute default
(180000 ms) in the duration accounting; but parseISODuration returns 0
on a failed regex match, so such a track is assigned 0 ms whenever the
playlist total is nonzero, and at elapsed 0 the resolver therefore
skips it and selects index 1 instead of index 0. -/
theorem c4_counterexample_malformed_gets_zero :
    trackDurationMs badTrack = 0 ∧
    effDurations [badTrack, trackA] = [0, 60000] ∧
    ((getCurrentTrack (some ⟨[badTrack, trackA], 0, 0, true, some [], 0⟩) 0 0).1.map
        (fun r => r.index) = some 1) := by decide

/-- C4 (amended): a track whose duration field is absent or falsy
(missing, the number 0, or the empty string) is assigned the 3-minute
default; a present but unparseable duration string parses to 0 seconds
and the track is assigned 0 ms, not the default; only when the total of
all computed durations is zero is every track assigned the default; and
the effective total of a nonempty playlist is always positive, so the
resolver never divides by zero and malformed strings never raise. -/
theorem c4_amended_duration_defaults :
    (∀ t : Track,
        (t.duration = none ∨ t.duration = some (.num 0) ∨ t.duration = some (.str "")) →
        trackDurationMs t = defaultTrackMs) ∧
    (∀ (t : Track) (str : String), t.duration = some (.str str) → str ≠ "" →
        afterPT str.toList = none → trackDurationMs t = 0) ∧
    (∀ pl : List Track, (rawDurations pl).sum = 0 →
        effDurations pl = pl.map (fun _ => defaultTrackMs)) ∧
    (∀ pl : List Track, pl ≠ [] → 0 < effTotal pl) := by
  refine ⟨?_, ?_, ?_, ?_⟩
  · intro t h
    rcases h with h | h | h <;> simp [trackDurationMs, durationTruthy, h]
  · intro t str hd hne hpt
    have hpt2 : afterPT str.data = none := hpt
    have htr : durationTruthy (some (JSDuration.str str)) = true := by
      simp [durationTruthy, hne]
    simp [trackDurationMs, htr, parseISODuration, hd, hne, parseISOStringSecs, hpt2]
  · intro pl h
    simp [effDurations, h]
  · intro pl h
    exact effTotal_pos pl h

/-- Witness for C4 (amended) at a track with a missing duration. -/
theorem c4_amended_witness : trackDurationMs ⟨none, none, none⟩ = defaultTrackMs :=
  c4_amended_duration_defaults.1 ⟨none, none, none⟩ (Or.inl rfl)

lemma cleanupListener_snd (now : Int) (l : Listener) :
    (cleanupListener now l).2 = if (cleanupListener now l).1.active then 1 else 0 := by
  rcases l with ⟨ts, act⟩
  cases act <;> rcases ts with _ | t <;>
    simp only [cleanupListener] <;> split_ifs <;> simp_all

/-- C8 counterexample: the claim requires every active session whose
heartbeat is older than the 5-minute threshold to be marked inactive;
a session with timestamp 0 (epoch, arbitrarily stale at now = 1000000)
is left active by the JS truthiness test and still counted, so the
written count is 1 where the claim demands 0. -/
theorem c8_counterexample_zero_timestamp_survives :
    (cleanupInactiveListeners 1000000 [("b", ⟨some 0, true⟩)]).1
        = [("b", ⟨some 0, true⟩)] ∧
    (cleanupInactiveListeners 1000000 [("b", ⟨some 0, true⟩)]).2 = 1 := by decide

/-- C8 (amended): cleanupInactiveListeners marks inactive every active
session whose heartbeat timestamp is present, nonzero and older than
the 5-minute threshold (a zero or absent timestamp is treated as
missing and the session stays active); the written count equals the
number of sessions that remain active; and the fresh-A stale-B
two-session scenario yields a count of 1. -/
theorem c8_amended_cleanup_marks_and_recounts :
    (∀ (now : Int) (sessions : List (String × Listener)) (sid : String)
        (l : Listener) (t : Int),
        (sid, l) ∈ sessions → l.active = true → l.timestamp = some t → t ≠ 0 →
        now - t > INACTIVE_THRESHOLD_MS →
        (sid, Listener.mk l.timestamp false) ∈ (cleanupInactiveListeners now sessions).1) ∧
    (∀ (now : Int) (sessions : List (String × Listener)),
        (cleanupInactiveListeners now sessions).2
          = countActive (cleanupInactiveListeners now sessions).1) ∧
    (∀ (now : Int) (a b : String) (tA tB : Int), tA ≠ 0 → tB ≠ 0 →
        now - tA ≤ INACTIVE_THRESHOLD_MS → now - tB > INACTIVE_THRESHOLD_MS →
        (cleanupInactiveListeners now [(a, ⟨some tA, true⟩), (b, ⟨some tB, true⟩)]).2 = 1) := by
  refine ⟨?_, ?_, ?_⟩
  · intro now sessions sid l t hmem hact hts ht0 hstale
    refine List.mem_map.mpr ⟨(sid, l), hmem, ?_⟩
    simp only [cleanupListener, hact, if_true, hts, if_pos ht0, if_pos hstale]
  · intro now sessions
    induction sessions with
    | nil => rfl
    | cons p rest ih =>
      simp only [cleanupInactiveListeners, List.map_cons, List.sum_cons,
        countActive, List.filter_cons] at ih ⊢
      rw [cleanupListener_snd]
      by_cases h : (cleanupListener now p.2).1.active
      · simp only [h, if_true, List.length_cons]
        omega
      · simp only [h, if_false, Bool.false_eq_true]
        omega
  · intro now a b tA tB hA0 hB0 hfresh hstale
    have h1 : ¬ now - tA > INACTIVE_THRESHOLD_MS := not_lt.mpr hfresh
    simp [cleanupInactiveListeners, cleanupListener, hA0, hB0, h1, hstale]

/-- Witness for C8 (amended): concrete fresh and stale sessions. -/
theorem c8_amended_witness :
    (cleanupInactiveListeners 1900000
      [("a", ⟨some 1700000, true⟩), ("b", ⟨some 1000000, true⟩)]).2 = 1 :=
  c8_amended_cleanup_marks_and_recounts.2.2 1900000 ("a") ("b") 1700000 1000000
    (by decide) (by decide) (by decide) (by decide)

end SchoolRadio
